import Mathlib

/-!
Shallow embedding of `morley.py`, an interactive visualizer of Morley's
trisector theorem, together with theorems settling the frozen claims about
its specification.

Modelling conventions:
* Python `int` coordinates become `ℤ`; Python `float` values become `ℝ`
  (exact real arithmetic).
* `math.atan2 y x` is `Complex.arg ⟨x, y⟩` (range `(-π, π]`, `atan2 0 0 = 0`,
  matching the C library behaviour Python exposes).
* Python `int(x)` on a float truncates toward zero; we model it with
  `intTrunc` (floor for nonnegative, ceiling for negative).
* Python float division raises `ZeroDivisionError` when the divisor is zero;
  fallible code is therefore embedded in `Except Unit`, with `.error ()`
  standing for the raised exception.
* `pygame.Rect.collidepoint` treats the rectangle as half-open: points on
  the right or bottom edge are outside.
-/

namespace Morley

/-- RGB colour triple, as the Python global lists `WHITE`, `YELLOW`, ... -/
abbrev Color := List ℕ

def WHITE : Color := [255, 255, 255]

def YELLOW : Color := [255, 255, 0]

def RED : Color := [255, 0, 0]

def BLACK : Color := [0, 0, 0]

def NODE_SIZE : ℤ := 16

/-- `rotate(a, n)` from the source: cyclic left rotation by `n % len(a)`. -/
def rotate {T : Type} (a : List T) (n : ℤ) : List T :=
  if a.length = 0 then a
  else
    let m := (n % (a.length : ℤ)).toNat
    a.drop m ++ a.take m

/-- The `Point` dataclass: integer coordinates. -/
structure Point where
  x : ℤ
  y : ℤ
deriving DecidableEq

/-- `Point.__add__`: componentwise addition. -/
def Point.add (p q : Point) : Point := ⟨p.x + q.x, p.y + q.y⟩

/-- `Point.__neg__`: componentwise negation. -/
def Point.neg (p : Point) : Point := ⟨-p.x, -p.y⟩

/-- `Point.__sub__`, defined in the source as `self + (-other)`. -/
def Point.sub (p q : Point) : Point := p.add q.neg

instance : Add Point := ⟨Point.add⟩

instance : Neg Point := ⟨Point.neg⟩

instance : Sub Point := ⟨Point.sub⟩

/-- The pointer events the program distinguishes: `pygame.MOUSEBUTTONDOWN`
(with a position), `pygame.MOUSEBUTTONUP` (position present but unused), and
any other event type. -/
inductive Event where
  | down (pos : Point)
  | up (pos : Point)
  | other
deriving DecidableEq

/-- The `Node` class: a draggable square.  `grab_offset = some o` is the
grabbed state ("`Grabbed`"), `none` is free ("`Free`"). -/
structure Node where
  top_left : Point
  size : ℤ
  grab_offset : Option Point
deriving DecidableEq

/-- `Node.__init__(x, y, size)`: starts free. -/
def Node.init (x y size : ℤ) : Node := ⟨⟨x, y⟩, size, none⟩

/-- `self.get_rect().collidepoint(pos)`: pygame rectangles are half-open,
a point on the right or bottom edge does not collide. -/
def Node.collidepoint (n : Node) (p : Point) : Bool :=
  decide (n.top_left.x ≤ p.x ∧ p.x < n.top_left.x + n.size ∧
    n.top_left.y ≤ p.y ∧ p.y < n.top_left.y + n.size)

/-- `Node.handle_event`: returns the updated node and the "consumed" flag.
A mouse-down inside the hit-box grabs (recording `pos - top_left`) and
returns `True`; a mouse-up frees the node and returns `False`; everything
else returns `False` and changes nothing. -/
def Node.handle_event (n : Node) (e : Event) : Node × Bool :=
  match e with
  | .down p =>
      if n.collidepoint p then
        ({ n with grab_offset := some (p - n.top_left) }, true)
      else (n, false)
  | .up _ => ({ n with grab_offset := none }, false)
  | .other => (n, false)

/-- `Node.update`: while grabbed, `top_left = mouse_pos - grab_offset`;
otherwise a no-op.  The current pointer position, read in the source via
`pygame.mouse.get_pos()`, is passed explicitly. -/
def Node.update (n : Node) (mouse_pos : Point) : Node :=
  match n.grab_offset with
  | some off => { n with top_left := mouse_pos - off }
  | none => n

/-- Python `int()` truncation (toward zero) of a rational. -/
def intTruncQ (q : ℚ) : ℤ := if 0 ≤ q then ⌊q⌋ else ⌈q⌉

/-- `Node.center`: `Point(int(x + size/2), int(y + size/2))` with float
(here rational) division. -/
def Node.center (n : Node) : Point :=
  ⟨intTruncQ ((n.top_left.x : ℚ) + (n.size : ℚ) / 2),
   intTruncQ ((n.top_left.y : ℚ) + (n.size : ℚ) / 2)⟩

/-- `Triangle.handle_event`'s loop body: deliver the event to each node in
order, stopping after the first node that reports "consumed". -/
def handleEventNodes (ns : List Node) (e : Event) : List Node :=
  match ns with
  | [] => []
  | n :: rest =>
      let r := n.handle_event e
      if r.2 then r.1 :: rest else r.1 :: handleEventNodes rest e

/-- The `Triangle` scene: its ordered list of nodes (always three in the
program, built by `Triangle.__init__`). -/
structure Triangle where
  nodes : List Node

/-- `Triangle.__init__`: the three nodes at their fixed initial positions. -/
def Triangle.init : Triangle :=
  ⟨[Node.init 300 100 NODE_SIZE, Node.init 700 400 NODE_SIZE,
    Node.init 100 400 NODE_SIZE]⟩

/-- `Triangle.handle_event`: first-match-wins dispatch over the nodes. -/
def Triangle.handle_event (t : Triangle) (e : Event) : Triangle :=
  ⟨handleEventNodes t.nodes e⟩

/-- `Triangle.update`: deliver the tick update to every node. -/
def Triangle.update (t : Triangle) (mouse_pos : Point) : Triangle :=
  ⟨t.nodes.map (fun n => n.update mouse_pos)⟩

instance : DecidableEq Triangle := fun s t =>
  decidable_of_iff (s.nodes = t.nodes) (by cases s; cases t; simp)

/-! ### Geometry: trisector angles and line intersections -/

/-- Python `int()` truncation (toward zero) of a float, on exact reals. -/
noncomputable def intTrunc (x : ℝ) : ℤ := if 0 ≤ x then ⌊x⌋ else ⌈x⌉

/-- `math.atan2 y x`: the argument of the complex number `x + y·i`,
with range `(-π, π]` and `atan2 0 0 = 0`. -/
noncomputable def atan2 (y x : ℝ) : ℝ := Complex.arg ⟨x, y⟩

/-- `get_intersection(p1, angle1, p2, angle2)`.  The source returns `None`
when `angle1 == angle2`; otherwise it divides by `tan2 - tan1`.  Python float
division raises `ZeroDivisionError` on a zero divisor, which we model as
`.error ()`; the successful branch truncates both coordinates with `int()`. -/
noncomputable def get_intersection (p1 : Point) (angle1 : ℝ) (p2 : Point)
    (angle2 : ℝ) : Except Unit (Option Point) :=
  if angle1 = angle2 then .ok none
  else
    let tan1 := Real.tan angle1
    let tan2 := Real.tan angle2
    if tan2 - tan1 = 0 then .error ()
    else
      let x := ((p1.y : ℝ) - (p2.y : ℝ) + (p2.x : ℝ) * tan2 - (p1.x : ℝ) * tan1) /
        (tan2 - tan1)
      .ok (some ⟨intTrunc x, intTrunc ((p1.y : ℝ) + tan1 * (x - (p1.x : ℝ)))⟩)

/-- The wrap correction in `Triangle.draw_trisectors`: when the two bearings
have opposite signs and `|angle_left| + |angle_right| > π`, add a full turn
to whichever is negative. -/
noncomputable def wrapAngles (al ar : ℝ) : ℝ × ℝ :=
  if al * ar < 0 ∧ |al| + |ar| > Real.pi then
    if al < 0 then (al + 2 * Real.pi, ar) else (al, ar + 2 * Real.pi)
  else (al, ar)

/-- The bearing from `c` toward `p`:
`atan2(p.y - c.y, p.x - c.x)` on the integer center coordinates. -/
noncomputable def bearingTo (c p : Point) : ℝ :=
  atan2 ((p.y - c.y : ℤ) : ℝ) ((p.x - c.x : ℤ) : ℝ)

/-- The per-vertex part of `Triangle.draw_trisectors`: bearings toward the
left and right neighbour centers, wrap correction, then the two blended
trisector angles `(onethird, twothirds)`. -/
noncomputable def thirdsC (c l r : Point) : ℝ × ℝ :=
  let al := bearingTo c l
  let ar := bearingTo c r
  let w := wrapAngles al ar
  ((2 / 3) * w.1 + (1 / 3) * w.2, (1 / 3) * w.1 + (2 / 3) * w.2)

/-- The conclusion of the wrap-correction claim for one vertex, with bearings
`al` (toward the left neighbour), `ar` (toward the right neighbour) and the
blended angle `third` (`onethird` in the source): the full turn is added to
the negative bearing exactly when the bearings have opposite signs and their
absolute values sum to more than `π`; after the correction the two bearings
differ, they span less than a half turn (the interior angle, not the
exterior one), and the blended angle lies strictly between them. -/
def WrapSpec (al ar third : ℝ) : Prop :=
  ((al * ar < 0 ∧ |al| + |ar| > Real.pi) →
    (al < 0 → wrapAngles al ar = (al + 2 * Real.pi, ar)) ∧
    (0 ≤ al → wrapAngles al ar = (al, ar + 2 * Real.pi))) ∧
  (¬(al * ar < 0 ∧ |al| + |ar| > Real.pi) → wrapAngles al ar = (al, ar)) ∧
  (wrapAngles al ar).1 ≠ (wrapAngles al ar).2 ∧
  |(wrapAngles al ar).1 - (wrapAngles al ar).2| < Real.pi ∧
  ((wrapAngles al ar).1 < (wrapAngles al ar).2 →
    (wrapAngles al ar).1 < third ∧ third < (wrapAngles al ar).2) ∧
  ((wrapAngles al ar).2 < (wrapAngles al ar).1 →
    (wrapAngles al ar).2 < third ∧ third < (wrapAngles al ar).1)

/-- `thirds[i]` for a node given its left (`nodes[i-1]`) and right
(`nodes[i+1]`) neighbours. -/
noncomputable def node_thirds (n lnode rnode : Node) : ℝ × ℝ :=
  thirdsC n.center lnode.center rnode.center

/-- Draw primitives emitted to the renderer.  `width = 0` means filled,
following pygame's convention. -/
inductive Prim where
  | line (color : Color) (p q : Point)
  | polygon (color : Color) (pts : List Point) (width : ℕ)
  | rect (color : Color) (top_left : Point) (size : ℤ) (width : ℕ)
deriving DecidableEq

/-- `Node.draw`: the hit-box glyph, outlined (`width 1`) when Free and
filled (`width 0`) when Grabbed. -/
def Node.draw (n : Node) : Prim :=
  .rect BLACK n.top_left n.size (if n.grab_offset = none then 1 else 0)

/-- The outer edges drawn by `Triangle.draw`:
`for node1, node2 in zip(self.nodes, rotate(self.nodes))`. -/
def edgePrims (ns : List Node) : List Prim :=
  (ns.zip (rotate ns 1)).map fun nn => Prim.line BLACK nn.1.center nn.2.center

/-- The node glyphs drawn last by `Triangle.draw`. -/
def glyphPrims (ns : List Node) : List Prim := ns.map Node.draw

/-- `intersections_maybe[0]`: vertex 0's two-thirds ray against vertex 1's
one-third ray (left of node 0 is node 2, right is node 1, and so on). -/
noncomputable def inter01 (n0 n1 n2 : Node) : Except Unit (Option Point) :=
  get_intersection n0.center (node_thirds n0 n2 n1).2
    n1.center (node_thirds n1 n0 n2).1

/-- `intersections_maybe[1]`: vertex 1's two-thirds ray against vertex 2's
one-third ray. -/
noncomputable def inter12 (n0 n1 n2 : Node) : Except Unit (Option Point) :=
  get_intersection n1.center (node_thirds n1 n0 n2).2
    n2.center (node_thirds n2 n1 n0).1

/-- `intersections_maybe[2]`: vertex 2's two-thirds ray against vertex 0's
one-third ray. -/
noncomputable def inter20 (n0 n1 n2 : Node) : Except Unit (Option Point) :=
  get_intersection n2.center (node_thirds n2 n1 n0).2
    n0.center (node_thirds n0 n2 n1).1

/-- `Triangle.draw_trisectors`, instantiated at the three nodes the
constructor builds.  The three intersections are computed in order (a fault
aborts, as the Python exception would); when all three are present the inner
triangle and the three corner triangles are emitted, otherwise nothing. -/
noncomputable def draw_trisectors (n0 n1 n2 : Node) : Except Unit (List Prim) :=
  match inter01 n0 n1 n2 with
  | .error e => .error e
  | .ok i0 =>
    match inter12 n0 n1 n2 with
    | .error e => .error e
    | .ok i1 =>
      match inter20 n0 n1 n2 with
      | .error e => .error e
      | .ok i2 =>
        match i0, i1, i2 with
        | some a, some b, some c =>
            .ok ([Prim.polygon YELLOW [a, b, c] 0, Prim.polygon BLACK [a, b, c] 1] ++
              [Prim.polygon RED [n0.center, a, n1.center] 0,
               Prim.polygon BLACK [n0.center, a, n1.center] 1,
               Prim.polygon RED [n1.center, b, n2.center] 0,
               Prim.polygon BLACK [n1.center, b, n2.center] 1,
               Prim.polygon RED [n2.center, c, n0.center] 0,
               Prim.polygon BLACK [n2.center, c, n0.center] 1])
        | _, _, _ => .ok []

/-- `Triangle.draw`, instantiated at three nodes: outer edges, then the
trisector polygons, then the node glyphs.  A fault inside
`draw_trisectors` propagates, so the glyphs drawn after it are lost. -/
noncomputable def drawScene (n0 n1 n2 : Node) : Except Unit (List Prim) :=
  match draw_trisectors n0 n1 n2 with
  | .error e => .error e
  | .ok tp => .ok (edgePrims [n0, n1, n2] ++ tp ++ glyphPrims [n0, n1, n2])

/-! ### Claims about the drag state machine -/

/-- C3 (counterexample): a pointer-up on a grabbed node does free it, but the
event is *not* consumed — `handle_event` returns `false`, contradicting the
claim that pointer-up returns `consumed = true`. -/
theorem C3_counterexample :
    (Node.handle_event ⟨⟨100, 100⟩, 16, some ⟨5, 5⟩⟩ (.up ⟨0, 0⟩)).2 = false ∧
    (Node.handle_event ⟨⟨100, 100⟩, 16, some ⟨5, 5⟩⟩ (.up ⟨0, 0⟩)).1.grab_offset = none := by
  exact ⟨rfl, rfl⟩

/-- C3 (amended): for every node in every grab state, a pointer-up event
unconditionally transitions the node to Free (regardless of the event's
position), and the event is not consumed (`handle_event` returns `false`),
which is what lets the release reach every node of the scene. -/
theorem C3_up_frees_unconditionally (n : Node) (p : Point) :
    Node.handle_event n (.up p) = ({ n with grab_offset := none }, false) := rfl

/-- C5: full drag lifecycle on a node with hit-box `[100,116) × [100,116)`:
pointer-down at `(105,105)` grabs with offset `(5,5)` and is consumed; an
update with the pointer at `(200,200)` moves `top_left` to `(195,195)`;
a pointer-up frees the node; a further update no longer moves it. -/
theorem C5_drag_lifecycle :
    let n0 : Node := ⟨⟨100, 100⟩, 16, none⟩
    let s1 := n0.handle_event (.down ⟨105, 105⟩)
    let n2 := s1.1.update ⟨200, 200⟩
    let n3 := (n2.handle_event (.up ⟨200, 200⟩)).1
    let n4 := n3.update ⟨350, 60⟩
    s1.2 = true ∧ s1.1.grab_offset = some ⟨5, 5⟩ ∧ s1.1.top_left = ⟨100, 100⟩ ∧
      n2.top_left = ⟨195, 195⟩ ∧ n3.grab_offset = none ∧
      n3.top_left = ⟨195, 195⟩ ∧ n4.top_left = ⟨195, 195⟩ := by
  decide

/-- C6: first-match-wins dispatch.  When a pointer-down lands inside the
hit-boxes of at least two of the three nodes, `Triangle.handle_event` grabs
exactly the first node (in scene order) whose hit-box contains the point and
leaves the other two nodes completely unchanged. -/
theorem C6_first_match_wins (n0 n1 n2 : Node) (p : Point)
    (h2 : (n0.collidepoint p ∧ n1.collidepoint p) ∨
          (n0.collidepoint p ∧ n2.collidepoint p) ∨
          (n1.collidepoint p ∧ n2.collidepoint p)) :
    (n0.collidepoint p →
      Triangle.handle_event ⟨[n0, n1, n2]⟩ (.down p) =
        ⟨[{ n0 with grab_offset := some (p - n0.top_left) }, n1, n2]⟩) ∧
    (¬ n0.collidepoint p → n1.collidepoint p →
      Triangle.handle_event ⟨[n0, n1, n2]⟩ (.down p) =
        ⟨[n0, { n1 with grab_offset := some (p - n1.top_left) }, n2]⟩) ∧
    (¬ n0.collidepoint p → ¬ n1.collidepoint p →
      Triangle.handle_event ⟨[n0, n1, n2]⟩ (.down p) =
        ⟨[n0, n1, { n2 with grab_offset := some (p - n2.top_left) }]⟩) := by
  refine ⟨fun h0 => ?_, fun h0 h1 => ?_, fun h0 h1 => ?_⟩
  · simp [Triangle.handle_event, handleEventNodes, Node.handle_event, h0]
  · simp [Triangle.handle_event, handleEventNodes, Node.handle_event, h0, h1]
  · have hc2 : n2.collidepoint p := by
      rcases h2 with ⟨ha, _⟩ | ⟨_, hb⟩ | ⟨ha, _⟩
      · exact absurd ha h0
      · exact hb
      · exact absurd ha h1
    simp [Triangle.handle_event, handleEventNodes, Node.handle_event, h0, h1, hc2]

/-- C6 witness: two overlapping nodes, a pointer-down in the overlap grabs
only the first. -/
theorem C6_witness :
    ((Node.init 100 100 16).collidepoint ⟨110, 110⟩ = true ∧
     (Node.init 105 105 16).collidepoint ⟨110, 110⟩ = true) ∧
    Triangle.handle_event
        ⟨[Node.init 100 100 16, Node.init 105 105 16, Node.init 400 400 16]⟩
        (.down ⟨110, 110⟩) =
      ⟨[⟨⟨100, 100⟩, 16, some ⟨10, 10⟩⟩, Node.init 105 105 16,
        Node.init 400 400 16]⟩ := by
  have h := C6_first_match_wins (Node.init 100 100 16) (Node.init 105 105 16)
    (Node.init 400 400 16) ⟨110, 110⟩ (Or.inl ⟨by decide, by decide⟩)
  exact ⟨⟨by decide, by decide⟩, by rw [h.1 (by decide)]; decide⟩

/-- C9: after `Triangle.handle_event` processes a pointer-up, all three nodes
are Free: no node consumes a pointer-up, so the release reaches them all. -/
theorem C9_up_frees_all_nodes (n0 n1 n2 : Node) (p : Point) :
    Triangle.handle_event ⟨[n0, n1, n2]⟩ (.up p) =
      ⟨[{ n0 with grab_offset := none }, { n1 with grab_offset := none },
        { n2 with grab_offset := none }]⟩ ∧
    (n0.handle_event (.up p)).2 = false := ⟨rfl, rfl⟩

/-- C10: frame conditions.  `handle_event` never changes a node's position or
size (only its grab state); `update` never changes its grab state or size,
and leaves the position unchanged when the node is Free. -/
theorem C10_frame_conditions (n : Node) (e : Event) (mp : Point) :
    (n.handle_event e).1.top_left = n.top_left ∧
    (n.handle_event e).1.size = n.size ∧
    (n.update mp).grab_offset = n.grab_offset ∧
    (n.update mp).size = n.size ∧
    (n.grab_offset = none → (n.update mp).top_left = n.top_left) := by
  refine ⟨?_, ?_, ?_, ?_, fun hfree => ?_⟩
  · cases e with
    | down p => simp only [Node.handle_event]; split <;> rfl
    | up p => rfl
    | other => rfl
  · cases e with
    | down p => simp only [Node.handle_event]; split <;> rfl
    | up p => rfl
    | other => rfl
  · cases h : n.grab_offset <;> simp [Node.update, h]
  · cases h : n.grab_offset <;> simp [Node.update, h]
  · simp [Node.update, hfree]

/-- C10 witness: a Free node does not move on update. -/
theorem C10_witness :
    (Node.update ⟨⟨1, 2⟩, 16, none⟩ ⟨50, 60⟩).top_left = Point.mk 1 2 :=
  (C10_frame_conditions ⟨⟨1, 2⟩, 16, none⟩ Event.other ⟨50, 60⟩).2.2.2.2 rfl

/-! ### Claims about the intersection computation -/

/-- Truncation toward zero moves a real by strictly less than one. -/
theorem abs_intTrunc_sub_lt (v : ℝ) : |(intTrunc v : ℝ) - v| < 1 := by
  rw [abs_lt]
  unfold intTrunc
  split_ifs with hv
  · constructor <;>
      [linarith [Int.lt_floor_add_one v]; linarith [Int.floor_le v]]
  · constructor <;>
      [linarith [Int.le_ceil v]; linarith [Int.ceil_lt_add_one v]]

/-- C1 (counterexample): the bearings `0` and `π` have equal tangent-slopes,
yet `get_intersection` does not return an absent result — its guard only
compares the angles themselves, so it reaches the division by the zero slope
difference and faults. -/
theorem C1_counterexample :
    Real.tan 0 = Real.tan Real.pi ∧
    get_intersection ⟨0, 0⟩ 0 ⟨0, 1⟩ Real.pi = .error () := by
  have hne : (0 : ℝ) ≠ Real.pi := fun h => Real.pi_ne_zero h.symm
  have hz : Real.tan Real.pi - Real.tan 0 = 0 := by
    rw [Real.tan_pi, Real.tan_zero, sub_zero]
  exact ⟨by rw [Real.tan_pi, Real.tan_zero], by simp [get_intersection, hne, hz]⟩

/-- C1 (amended): `get_intersection` returns an absent result exactly when
the two bearing angles are equal, and it faults (divides by zero) exactly
when the angles differ but their tangent-slopes coincide; in every other
case it returns a point. -/
theorem C1_guard_characterization (p1 : Point) (a1 : ℝ) (p2 : Point) (a2 : ℝ) :
    (get_intersection p1 a1 p2 a2 = .ok none ↔ a1 = a2) ∧
    (get_intersection p1 a1 p2 a2 = .error () ↔
      a1 ≠ a2 ∧ Real.tan a1 = Real.tan a2) := by
  by_cases h1 : a1 = a2
  · simp [get_intersection, h1]
  · by_cases h2 : Real.tan a1 = Real.tan a2
    · have hz : Real.tan a2 - Real.tan a1 = 0 := by rw [h2, sub_self]
      simp [get_intersection, hz, h1, h2]
    · have hz : Real.tan a2 - Real.tan a1 ≠ 0 := sub_ne_zero.mpr (Ne.symm h2)
      simp [get_intersection, hz, h1, h2]

/-- C8: for any two lines given as base point plus bearing whose
tangent-slopes differ, `get_intersection` returns a point which, up to the
`int()` truncation error (strictly less than one per coordinate), satisfies
both line equations: each residual is at most `1 + |tan angle|`. -/
theorem C8_round_trip (p1 : Point) (a1 : ℝ) (p2 : Point) (a2 : ℝ)
    (h : Real.tan a1 ≠ Real.tan a2) :
    ∃ q : Point, get_intersection p1 a1 p2 a2 = .ok (some q) ∧
      |((q.y : ℝ) - (p1.y : ℝ)) - Real.tan a1 * ((q.x : ℝ) - (p1.x : ℝ))| ≤
        1 + |Real.tan a1| ∧
      |((q.y : ℝ) - (p2.y : ℝ)) - Real.tan a2 * ((q.x : ℝ) - (p2.x : ℝ))| ≤
        1 + |Real.tan a2| := by
  have hane : a1 ≠ a2 := fun he => h (by rw [he])
  have hsub : Real.tan a2 - Real.tan a1 ≠ 0 := sub_ne_zero.mpr (Ne.symm h)
  set t1 := Real.tan a1 with ht1
  set t2 := Real.tan a2 with ht2
  set x : ℝ :=
    ((p1.y : ℝ) - (p2.y : ℝ) + (p2.x : ℝ) * t2 - (p1.x : ℝ) * t1) / (t2 - t1)
    with hxdef
  set y : ℝ := (p1.y : ℝ) + t1 * (x - (p1.x : ℝ)) with hydef
  have hx1 := abs_intTrunc_sub_lt x
  have hy1 := abs_intTrunc_sub_lt y
  have habs1 : (0 : ℝ) ≤ |t1| := abs_nonneg t1
  have habs2 : (0 : ℝ) ≤ |t2| := abs_nonneg t2
  refine ⟨⟨intTrunc x, intTrunc y⟩, ?_, ?_, ?_⟩
  · simp only [get_intersection, if_neg hane, if_neg hsub]
  · have hrw : ((intTrunc y : ℝ) - (p1.y : ℝ)) - t1 * ((intTrunc x : ℝ) - (p1.x : ℝ)) =
        ((intTrunc y : ℝ) - y) - t1 * ((intTrunc x : ℝ) - x) := by
      rw [hydef]; ring
    rw [hrw]
    calc |((intTrunc y : ℝ) - y) - t1 * ((intTrunc x : ℝ) - x)|
        ≤ |(intTrunc y : ℝ) - y| + |t1 * ((intTrunc x : ℝ) - x)| := abs_sub _ _
      _ = |(intTrunc y : ℝ) - y| + |t1| * |(intTrunc x : ℝ) - x| := by rw [abs_mul]
      _ ≤ 1 + |t1| * 1 := by
          have := mul_le_mul_of_nonneg_left (le_of_lt hx1) habs1
          linarith
      _ = 1 + |t1| := by ring
  · have hxe : x * (t2 - t1) =
        (p1.y : ℝ) - (p2.y : ℝ) + (p2.x : ℝ) * t2 - (p1.x : ℝ) * t1 :=
      div_mul_cancel₀ _ hsub
    have hzero : (y - (p2.y : ℝ)) - t2 * (x - (p2.x : ℝ)) = 0 := by
      rw [hydef]; linear_combination -hxe
    have hrw : ((intTrunc y : ℝ) - (p2.y : ℝ)) - t2 * ((intTrunc x : ℝ) - (p2.x : ℝ)) =
        (((intTrunc y : ℝ) - y) - t2 * ((intTrunc x : ℝ) - x)) +
          ((y - (p2.y : ℝ)) - t2 * (x - (p2.x : ℝ))) := by ring
    rw [hrw, hzero, add_zero]
    calc |((intTrunc y : ℝ) - y) - t2 * ((intTrunc x : ℝ) - x)|
        ≤ |(intTrunc y : ℝ) - y| + |t2 * ((intTrunc x : ℝ) - x)| := abs_sub _ _
      _ = |(intTrunc y : ℝ) - y| + |t2| * |(intTrunc x : ℝ) - x| := by rw [abs_mul]
      _ ≤ 1 + |t2| * 1 := by
          have := mul_le_mul_of_nonneg_left (le_of_lt hx1) habs2
          linarith
      _ = 1 + |t2| := by ring

/-! ### Claims about degenerate triangles and the draw list -/

/-- `atan2 0 x = 0` for a nonnegative `x`; in particular `atan2 0 0 = 0`,
matching `math.atan2(0.0, 0.0) == 0.0`. -/
theorem atan2_zero_nonneg (x : ℝ) (hx : 0 ≤ x) : atan2 0 x = 0 := by
  unfold atan2
  rw [show (⟨x, (0 : ℝ)⟩ : ℂ) = ((x : ℝ) : ℂ) from rfl]
  exact Complex.arg_ofReal_of_nonneg hx

/-- `atan2 0 x = π` for a negative `x`. -/
theorem atan2_zero_neg (x : ℝ) (hx : x < 0) : atan2 0 x = Real.pi := by
  unfold atan2
  rw [show (⟨x, (0 : ℝ)⟩ : ℂ) = ((x : ℝ) : ℂ) from rfl]
  exact Complex.arg_ofReal_of_neg hx

/-- The wrap correction is the identity whenever the product of the two
bearings is nonnegative. -/
theorem wrapAngles_of_nonneg_prod (al ar : ℝ) (h : 0 ≤ al * ar) :
    wrapAngles al ar = (al, ar) := by
  unfold wrapAngles
  rw [if_neg]
  rintro ⟨hlt, -⟩
  exact absurd hlt (not_lt.mpr h)

/-- When the right neighbour coincides with the vertex, the bearing toward it
is `atan2 0 0 = 0` and `twothirds` degenerates to a third of the bearing
toward the left neighbour. -/
theorem thirdsC_right_self (c q : Point) :
    (thirdsC c q c).2 = 1 / 3 * atan2 ((q.y - c.y : ℤ) : ℝ) ((q.x - c.x : ℤ) : ℝ) := by
  simp only [thirdsC, bearingTo, sub_self, Int.cast_zero]
  rw [atan2_zero_nonneg 0 le_rfl, wrapAngles_of_nonneg_prod _ _ (by simp)]
  ring

/-- When the left neighbour coincides with the vertex, `onethird` degenerates
to a third of the bearing toward the right neighbour. -/
theorem thirdsC_left_self (c q : Point) :
    (thirdsC c c q).1 = 1 / 3 * atan2 ((q.y - c.y : ℤ) : ℝ) ((q.x - c.x : ℤ) : ℝ) := by
  simp only [thirdsC, bearingTo, sub_self, Int.cast_zero]
  rw [atan2_zero_nonneg 0 le_rfl, wrapAngles_of_nonneg_prod _ _ (by simp)]
  ring

/-- For an adjacent pair of nodes with coincident centers, the first node's
two-thirds angle and the second node's one-third angle are the very same
real number, so their intersection is reported absent by the equal-angle
guard of `get_intersection`. -/
theorem inter_coincident (A B T : Node) (h : A.center = B.center) :
    get_intersection A.center (node_thirds A T B).2
      B.center (node_thirds B A T).1 = .ok none := by
  have h2 : (node_thirds A T B).2 = (node_thirds B A T).1 := by
    unfold node_thirds
    rw [h, thirdsC_right_self, thirdsC_left_self]
  rw [h2]
  simp [get_intersection]

/-- Coincident centers of nodes 0 and 1 make `intersections_maybe[0]` absent. -/
theorem inter01_coincident (n0 n1 n2 : Node) (h : n0.center = n1.center) :
    inter01 n0 n1 n2 = .ok none := inter_coincident n0 n1 n2 h

/-- Coincident centers of nodes 1 and 2 make `intersections_maybe[1]` absent. -/
theorem inter12_coincident (n0 n1 n2 : Node) (h : n1.center = n2.center) :
    inter12 n0 n1 n2 = .ok none := inter_coincident n1 n2 n0 h

/-- Coincident centers of nodes 2 and 0 make `intersections_maybe[2]` absent. -/
theorem inter20_coincident (n0 n1 n2 : Node) (h : n2.center = n0.center) :
    inter20 n0 n1 n2 = .ok none := inter_coincident n2 n0 n1 h

/-- If some intersection is absent and `draw_trisectors` completes without a
fault, it emits no polygons at all. -/
theorem draw_trisectors_skip_of_absent (n0 n1 n2 : Node)
    (h : inter01 n0 n1 n2 = .ok none ∨ inter12 n0 n1 n2 = .ok none ∨
      inter20 n0 n1 n2 = .ok none) :
    ∀ ps, draw_trisectors n0 n1 n2 = .ok ps → ps = [] := by
  intro ps hps
  unfold draw_trisectors at hps
  rcases h0 : inter01 n0 n1 n2 with e0 | i0 <;> rw [h0] at hps
  · cases hps
  rcases h1 : inter12 n0 n1 n2 with e1 | i1 <;> rw [h1] at hps
  · cases hps
  rcases h2 : inter20 n0 n1 n2 with e2 | i2 <;> rw [h2] at hps
  · cases hps
  have habs : i0 = none ∨ i1 = none ∨ i2 = none := by
    rcases h with ha | ha | ha
    · exact Or.inl (Except.ok.inj (h0 ▸ ha).symm).symm
    · exact Or.inr (Or.inl (Except.ok.inj (h1 ▸ ha).symm).symm)
    · exact Or.inr (Or.inr (Except.ok.inj (h2 ▸ ha).symm).symm)
  rcases i0 with - | a <;> rcases i1 with - | b <;> rcases i2 with - | c <;>
    simp_all

/-- C2 (counterexample): nodes at `(0,0)`, `(0,0)`, `(10,0)` — the first two
vertex centers coincide, yet the geometry computation faults: the second
intersection pairs the bearings `0` and `π`, whose tangents are both zero,
so the slope-difference division divides by zero.  The claim that the
computation never raises for coincident vertices is false. -/
theorem C2_counterexample :
    (Node.init 0 0 16).center = (Node.init 0 0 16).center ∧
    draw_trisectors (Node.init 0 0 16) (Node.init 0 0 16) (Node.init 10 0 16) =
      .error () := by
  refine ⟨rfl, ?_⟩
  have hca : (Node.init 0 0 16).center = ⟨8, 8⟩ := by
    norm_num [Node.center, Node.init, intTruncQ]
  have hcc : (Node.init 10 0 16).center = ⟨18, 8⟩ := by
    norm_num [Node.center, Node.init, intTruncQ]
  have ht1 : thirdsC ⟨8, 8⟩ ⟨8, 8⟩ ⟨18, 8⟩ = (0, 0) := by
    simp only [thirdsC, bearingTo]
    norm_num
    rw [atan2_zero_nonneg 0 le_rfl, atan2_zero_nonneg 10 (by norm_num),
      wrapAngles_of_nonneg_prod 0 0 (by norm_num)]
    norm_num
  have ht2 : (thirdsC ⟨18, 8⟩ ⟨8, 8⟩ ⟨8, 8⟩).1 = Real.pi := by
    simp only [thirdsC, bearingTo]
    norm_num
    rw [atan2_zero_neg (-10) (by norm_num),
      wrapAngles_of_nonneg_prod _ _ (mul_nonneg Real.pi_pos.le Real.pi_pos.le)]
    ring
  have h12 : inter12 (Node.init 0 0 16) (Node.init 0 0 16) (Node.init 10 0 16) =
      .error () := by
    unfold inter12 node_thirds
    rw [hca, hcc, ht2]
    rw [show (thirdsC (⟨8, 8⟩ : Point) ⟨8, 8⟩ ⟨18, 8⟩).2 = 0 from by rw [ht1]]
    have hne : (0 : ℝ) ≠ Real.pi := fun hh => Real.pi_ne_zero hh.symm
    have hz : Real.tan Real.pi - Real.tan 0 = 0 := by
      rw [Real.tan_pi, Real.tan_zero, sub_zero]
    simp [get_intersection, hne, hz]
  have h01 : inter01 (Node.init 0 0 16) (Node.init 0 0 16) (Node.init 10 0 16) =
      .ok none := inter01_coincident _ _ _ rfl
  unfold draw_trisectors
  rw [h01, h12]

/-- C2 (amended): for every triangle with two coincident vertex centers, the
intersection between the coincident pair is absent (exact equal-angle guard),
so whenever the geometry computation does not fault, all polygon drawing is
skipped and the emitted draw list is exactly the outer edges followed by the
node glyphs.  (The computation *can* fault on such triangles — see the
counterexample — which is the only part of the original claim that fails.) -/
theorem C2_coincident_pair (n0 n1 n2 : Node)
    (h : n0.center = n1.center ∨ n1.center = n2.center ∨ n2.center = n0.center) :
    (inter01 n0 n1 n2 = .ok none ∨ inter12 n0 n1 n2 = .ok none ∨
      inter20 n0 n1 n2 = .ok none) ∧
    (∀ ps, draw_trisectors n0 n1 n2 = .ok ps → ps = []) ∧
    (∀ ps, drawScene n0 n1 n2 = .ok ps →
      ps = edgePrims [n0, n1, n2] ++ glyphPrims [n0, n1, n2]) := by
  have habs : inter01 n0 n1 n2 = .ok none ∨ inter12 n0 n1 n2 = .ok none ∨
      inter20 n0 n1 n2 = .ok none := by
    rcases h with hc | hc | hc
    · exact Or.inl (inter01_coincident n0 n1 n2 hc)
    · exact Or.inr (Or.inl (inter12_coincident n0 n1 n2 hc))
    · exact Or.inr (Or.inr (inter20_coincident n0 n1 n2 hc))
  have hskip := draw_trisectors_skip_of_absent n0 n1 n2 habs
  refine ⟨habs, hskip, ?_⟩
  intro ps hps
  unfold drawScene at hps
  rcases hdt : draw_trisectors n0 n1 n2 with e | tp <;> rw [hdt] at hps
  · cases hps
  · have htp := hskip tp hdt
    subst htp
    simpa using (Except.ok.inj hps).symm

/-- C2 witness: a concrete fully coincident triangle, where the computation
does not fault and the first intersection is reported absent. -/
theorem C2_witness :
    ((Node.init 0 0 16).center = (Node.init 0 0 16).center ∨
      (Node.init 0 0 16).center = (Node.init 0 0 16).center ∨
      (Node.init 0 0 16).center = (Node.init 0 0 16).center) ∧
    (inter01 (Node.init 0 0 16) (Node.init 0 0 16) (Node.init 0 0 16) = .ok none ∨
      inter12 (Node.init 0 0 16) (Node.init 0 0 16) (Node.init 0 0 16) = .ok none ∨
      inter20 (Node.init 0 0 16) (Node.init 0 0 16) (Node.init 0 0 16) = .ok none) :=
  ⟨Or.inl rfl, (C2_coincident_pair _ _ _ (Or.inl rfl)).1⟩

/-- C7 (counterexample): a configuration where an intersection *is* absent
(the coincident pair) and yet the tick does not "skip polygon drawing without
error": the draw faults on the next intersection, so not even the edges and
node glyphs are emitted. -/
theorem C7_counterexample :
    inter01 (Node.init 0 0 16) (Node.init 0 0 16) (Node.init 10 0 16) = .ok none ∧
    drawScene (Node.init 0 0 16) (Node.init 0 0 16) (Node.init 10 0 16) =
      .error () := by
  refine ⟨inter01_coincident _ _ _ rfl, ?_⟩
  unfold drawScene
  rw [C2_counterexample.2]

/-- C7 (amended): polygons are emitted only when all three intersections are
present; and when some intersection is absent, *provided the computation does
not fault*, the emitted draw list is exactly the outer edges followed by the
node glyphs (all polygon drawing is skipped). -/
theorem C7_polygons_all_or_nothing (n0 n1 n2 : Node) :
    (∀ ps, draw_trisectors n0 n1 n2 = .ok ps → ps ≠ [] →
      ∃ a b c, inter01 n0 n1 n2 = .ok (some a) ∧ inter12 n0 n1 n2 = .ok (some b) ∧
        inter20 n0 n1 n2 = .ok (some c)) ∧
    ((inter01 n0 n1 n2 = .ok none ∨ inter12 n0 n1 n2 = .ok none ∨
        inter20 n0 n1 n2 = .ok none) →
      ∀ ps, drawScene n0 n1 n2 = .ok ps →
        ps = edgePrims [n0, n1, n2] ++ glyphPrims [n0, n1, n2]) := by
  constructor
  · intro ps hps hne
    unfold draw_trisectors at hps
    rcases h0 : inter01 n0 n1 n2 with e0 | i0 <;> rw [h0] at hps
    · cases hps
    rcases h1 : inter12 n0 n1 n2 with e1 | i1 <;> rw [h1] at hps
    · cases hps
    rcases h2 : inter20 n0 n1 n2 with e2 | i2 <;> rw [h2] at hps
    · cases hps
    rcases i0 with - | a <;> rcases i1 with - | b <;> rcases i2 with - | c <;>
      simp_all
  · intro habs ps hps
    have hskip := draw_trisectors_skip_of_absent n0 n1 n2 habs
    unfold drawScene at hps
    rcases hdt : draw_trisectors n0 n1 n2 with e | tp <;> rw [hdt] at hps
    · cases hps
    · have htp := hskip tp hdt
      subst htp
      simpa using (Except.ok.inj hps).symm

/-- C7 witness: on a fully coincident triangle the draw completes and emits
exactly the edges followed by the glyphs. -/
theorem C7_witness :
    ∃ ps, drawScene (Node.init 5 5 16) (Node.init 5 5 16) (Node.init 5 5 16) =
        .ok ps ∧
      ps = edgePrims [Node.init 5 5 16, Node.init 5 5 16, Node.init 5 5 16] ++
        glyphPrims [Node.init 5 5 16, Node.init 5 5 16, Node.init 5 5 16] := by
  have hdt : draw_trisectors (Node.init 5 5 16) (Node.init 5 5 16)
      (Node.init 5 5 16) = .ok [] := by
    unfold draw_trisectors
    rw [inter01_coincident _ _ _ rfl, inter12_coincident _ _ _ rfl,
      inter20_coincident _ _ _ rfl]
  have hscene : drawScene (Node.init 5 5 16) (Node.init 5 5 16)
      (Node.init 5 5 16) =
      .ok (edgePrims [Node.init 5 5 16, Node.init 5 5 16, Node.init 5 5 16] ++
        [] ++ glyphPrims [Node.init 5 5 16, Node.init 5 5 16, Node.init 5 5 16]) := by
    unfold drawScene
    rw [hdt]
  exact ⟨_, hscene,
    (C7_polygons_all_or_nothing _ _ _).2 (Or.inl (inter01_coincident _ _ _ rfl))
      _ hscene⟩

/-! ### Claim about the wrap correction -/

/-- C4: at a vertex `c` with neighbours `l` and `r` that are not collinear
with it (nonzero cross product of the neighbour offsets — the nondegeneracy
that makes the three centers a genuine triangle), the full turn is added to
the negative bearing exactly under the source's condition (opposite signs
and `|angle_left| + |angle_right| > π`), and after the correction the
blended angle `onethird` lies strictly between the two bearings, whose
corrected span is less than `π` — the interior angle, not the exterior one.
Quantifying over all `c`, `l`, `r` covers every rotation/reflection of the
vertex order. -/
theorem C4_wrap_and_interior (c l r : Point)
    (hnc : ((l.x - c.x) * (r.y - c.y) - (l.y - c.y) * (r.x - c.x) : ℤ) ≠ 0) :
    WrapSpec (bearingTo c l) (bearingTo c r) (thirdsC c l r).1 := by
  set al := bearingTo c l with haldef
  set ar := bearingTo c r with hardef
  have hthird : (thirdsC c l r).1 =
      2 / 3 * (wrapAngles al ar).1 + 1 / 3 * (wrapAngles al ar).2 := rfl
  have halz : al = Complex.arg ⟨((l.x - c.x : ℤ) : ℝ), ((l.y - c.y : ℤ) : ℝ)⟩ := rfl
  have harz : ar = Complex.arg ⟨((r.x - c.x : ℤ) : ℝ), ((r.y - c.y : ℤ) : ℝ)⟩ := rfl
  have hz1 : (⟨((l.x - c.x : ℤ) : ℝ), ((l.y - c.y : ℤ) : ℝ)⟩ : ℂ) ≠ 0 := by
    intro h0
    have hre : ((l.x - c.x : ℤ) : ℝ) = 0 := congrArg Complex.re h0
    have him : ((l.y - c.y : ℤ) : ℝ) = 0 := congrArg Complex.im h0
    rw [Int.cast_eq_zero] at hre him
    apply hnc
    rw [hre, him]
    ring
  have hz2 : (⟨((r.x - c.x : ℤ) : ℝ), ((r.y - c.y : ℤ) : ℝ)⟩ : ℂ) ≠ 0 := by
    intro h0
    have hre : ((r.x - c.x : ℤ) : ℝ) = 0 := congrArg Complex.re h0
    have him : ((r.y - c.y : ℤ) : ℝ) = 0 := congrArg Complex.im h0
    rw [Int.cast_eq_zero] at hre him
    apply hnc
    rw [hre, him]
    ring
  have hrange1 : -Real.pi < al ∧ al ≤ Real.pi := by
    rw [halz]
    exact Set.mem_Ioc.mp (Complex.arg_mem_Ioc _)
  have hrange2 : -Real.pi < ar ∧ ar ≤ Real.pi := by
    rw [harz]
    exact Set.mem_Ioc.mp (Complex.arg_mem_Ioc _)
  have habs1 : Complex.abs ⟨((l.x - c.x : ℤ) : ℝ), ((l.y - c.y : ℤ) : ℝ)⟩ ≠ 0 :=
    Complex.abs.ne_zero hz1
  have habs2 : Complex.abs ⟨((r.x - c.x : ℤ) : ℝ), ((r.y - c.y : ℤ) : ℝ)⟩ ≠ 0 :=
    Complex.abs.ne_zero hz2
  have hnum : ((l.y - c.y : ℤ) : ℝ) * ((r.x - c.x : ℤ) : ℝ) -
      ((l.x - c.x : ℤ) : ℝ) * ((r.y - c.y : ℤ) : ℝ) ≠ 0 := by
    have hint : (((l.y - c.y) * (r.x - c.x) - (l.x - c.x) * (r.y - c.y) : ℤ) : ℝ) ≠ 0 := by
      rw [Int.cast_ne_zero]
      intro hh
      apply hnc
      linarith
    push_cast at hint ⊢
    exact hint
  have hsin : Real.sin (al - ar) ≠ 0 := by
    rw [halz, harz, Real.sin_sub, Complex.sin_arg, Complex.sin_arg,
      Complex.cos_arg hz1, Complex.cos_arg hz2]
    rw [div_mul_div_comm, div_mul_div_comm, div_sub_div_same]
    exact div_ne_zero hnum (mul_ne_zero habs1 habs2)
  have hne0 : al ≠ ar := by
    intro h
    apply hsin
    rw [h, sub_self, Real.sin_zero]
  have hnepi : al - ar ≠ Real.pi := by
    intro h
    apply hsin
    rw [h, Real.sin_pi]
  have hnenegpi : al - ar ≠ -Real.pi := by
    intro h
    apply hsin
    rw [h, Real.sin_neg, Real.sin_pi, neg_zero]
  obtain ⟨hal1, hal2⟩ := hrange1
  obtain ⟨har1, har2⟩ := hrange2
  have key : (wrapAngles al ar).1 ≠ (wrapAngles al ar).2 ∧
      |(wrapAngles al ar).1 - (wrapAngles al ar).2| < Real.pi := by
    by_cases hw : al * ar < 0 ∧ |al| + |ar| > Real.pi
    · rcases mul_neg_iff.mp hw.1 with ⟨hpos, hneg⟩ | ⟨hneg, hpos⟩
      · -- 0 < al and ar < 0: the full turn goes to ar
        have hwv : wrapAngles al ar = (al, ar + 2 * Real.pi) := by
          unfold wrapAngles
          rw [if_pos hw, if_neg (not_lt.mpr hpos.le)]
        have hsum : Real.pi < al - ar := by
          have h2 := hw.2
          rw [abs_of_pos hpos, abs_of_neg hneg] at h2
          linarith
        have hlt : al - ar < 2 * Real.pi := by linarith
        rw [hwv]
        refine ⟨fun he => ?_, ?_⟩
        · have he2 : al = ar + 2 * Real.pi := he
          linarith
        · show |al - (ar + 2 * Real.pi)| < Real.pi
          rw [abs_lt]
          constructor <;> linarith
      · -- al < 0 and 0 < ar: the full turn goes to al
        have hwv : wrapAngles al ar = (al + 2 * Real.pi, ar) := by
          unfold wrapAngles
          rw [if_pos hw, if_pos hneg]
        have hsum : Real.pi < ar - al := by
          have h2 := hw.2
          rw [abs_of_neg hneg, abs_of_pos hpos] at h2
          linarith
        have hlt : ar - al < 2 * Real.pi := by linarith
        rw [hwv]
        refine ⟨fun he => ?_, ?_⟩
        · have he2 : al + 2 * Real.pi = ar := he
          linarith
        · show |al + 2 * Real.pi - ar| < Real.pi
          rw [abs_lt]
          constructor <;> linarith
    · have hwv : wrapAngles al ar = (al, ar) := by
        unfold wrapAngles
        rw [if_neg hw]
      rw [hwv]
      refine ⟨hne0, ?_⟩
      show |al - ar| < Real.pi
      rw [abs_lt]
      constructor
      · by_contra hc
        push_neg at hc
        have hlt2 : al - ar < -Real.pi := lt_of_le_of_ne hc hnenegpi
        have hal0 : al < 0 := by linarith
        have har0 : 0 < ar := by linarith
        exact hw ⟨mul_neg_of_neg_of_pos hal0 har0, by
          rw [abs_of_neg hal0, abs_of_pos har0]; linarith⟩
      · by_contra hc
        push_neg at hc
        have hlt2 : Real.pi < al - ar := lt_of_le_of_ne hc (Ne.symm hnepi)
        have har0 : ar < 0 := by linarith
        have hal0 : 0 < al := by linarith
        exact hw ⟨mul_neg_of_pos_of_neg hal0 har0, by
          rw [abs_of_pos hal0, abs_of_neg har0]; linarith⟩
  unfold WrapSpec
  refine ⟨fun hw => ⟨fun hneg => ?_, fun hnneg => ?_⟩, fun hw => ?_,
    key.1, key.2, fun hlt => ?_, fun hlt => ?_⟩
  · unfold wrapAngles
    rw [if_pos hw, if_pos hneg]
  · unfold wrapAngles
    rw [if_pos hw, if_neg (not_lt.mpr hnneg)]
  · unfold wrapAngles
    rw [if_neg hw]
  · rw [hthird]
    constructor <;> linarith
  · rw [hthird]
    constructor <;> linarith

/-- C4 witness: the right-angle corner `c = (0,0)`, `l = (1,0)`, `r = (0,1)`
is nondegenerate. -/
theorem C4_witness :
    (((Point.mk 1 0).x - (Point.mk 0 0).x) * ((Point.mk 0 1).y - (Point.mk 0 0).y) -
        ((Point.mk 1 0).y - (Point.mk 0 0).y) * ((Point.mk 0 1).x - (Point.mk 0 0).x) : ℤ) ≠ 0 ∧
    WrapSpec (bearingTo (Point.mk 0 0) (Point.mk 1 0))
      (bearingTo (Point.mk 0 0) (Point.mk 0 1))
      (thirdsC (Point.mk 0 0) (Point.mk 1 0) (Point.mk 0 1)).1 :=
  ⟨by decide, C4_wrap_and_interior (Point.mk 0 0) (Point.mk 1 0) (Point.mk 0 1) (by decide)⟩

/-- C8 witness: the lines through the origin with bearings `0` and `π/4`. -/
theorem C8_witness :
    Real.tan 0 ≠ Real.tan (Real.pi / 4) ∧
    ∃ q : Point, get_intersection ⟨0, 0⟩ 0 ⟨0, 0⟩ (Real.pi / 4) = .ok (some q) ∧
      |((q.y : ℝ) - ((0 : ℤ) : ℝ)) - Real.tan 0 * ((q.x : ℝ) - ((0 : ℤ) : ℝ))| ≤
        1 + |Real.tan 0| ∧
      |((q.y : ℝ) - ((0 : ℤ) : ℝ)) -
          Real.tan (Real.pi / 4) * ((q.x : ℝ) - ((0 : ℤ) : ℝ))| ≤
        1 + |Real.tan (Real.pi / 4)| := by
  have hne : Real.tan 0 ≠ Real.tan (Real.pi / 4) := by
    rw [Real.tan_zero, Real.tan_pi_div_four]; norm_num
  exact ⟨hne, C8_round_trip ⟨0, 0⟩ 0 ⟨0, 0⟩ (Real.pi / 4) hne⟩

end Morley
